import Mathlib

set_option maxRecDepth 10000

/-! Verification of the clusterbot check-and-report engine (`src/libbot.py`).

The embedding models diagnostic logs as lists of lines, each line a list of
characters.  Python's substring test (`"RUNNING" in line`) is modelled by
`containsSub`, built on `List.IsInfix`.  Integer formatting (`str`) is
modelled by `natChars`/`intChars`, which render decimal digits.  Each
`check_*` method of `ClusterBot` becomes a pure function from the captured
log to the rendered message (a list of characters); `check_hdfs` returns an
`Option` because the source indexes `[0]` into a filtered list and raises
`IndexError` when the marker line is absent.  `run_all` accumulates the
message exactly as the source does and derives the username from a
substring scan for the degraded marker.
-/

/-- A line of a captured log. -/
abbrev Line := List Char

/-- A captured log: the ordered lines returned by `return_log`. -/
abbrev Log := List Line

/-- Python's substring containment test `pat in l` on strings. -/
def containsSub (pat l : List Char) : Bool := decide (pat <:+: l)

/-- Count of lines containing `pat`: `len([line for line in log if pat in line])`. -/
def countContaining (pat : List Char) (log : Log) : Nat :=
  (log.filter (fun l => containsSub pat l)).length

/-- The decimal digit character for `n` (meaningful for `n < 10`). -/
def digitChar (n : Nat) : Char := Char.ofNat (48 + n)

/-- Digit-accumulating loop behind `natChars`.  The fuel argument makes
the recursion structural; `natChars` supplies enough fuel for every input. -/
def natCharsAux : Nat → Nat → List Char → List Char
  | 0, _, acc => acc
  | fuel + 1, n, acc =>
    if n < 10 then digitChar n :: acc
    else natCharsAux fuel (n / 10) (digitChar (n % 10) :: acc)

/-- Decimal rendering of a natural number, as Python's `str` produces it. -/
def natChars (n : Nat) : List Char := natCharsAux (n + 1) n []

/-- Decimal rendering of an integer, as Python's `str` produces it. -/
def intChars (i : Int) : List Char :=
  if i < 0 then '-' :: natChars i.natAbs else natChars i.toNat

theorem natCharsAux_ne_nil (fuel n : Nat) (acc : List Char) (h : acc ≠ [] ∨ 1 ≤ fuel) :
    natCharsAux fuel n acc ≠ [] := by
  induction fuel generalizing n acc with
  | zero =>
    rcases h with h | h
    · exact h
    · omega
  | succ fuel ih =>
    rw [natCharsAux]
    split
    · simp
    · exact ih (n / 10) (digitChar (n % 10) :: acc) (Or.inl (by simp))

theorem natChars_ne_nil (n : Nat) : natChars n ≠ [] :=
  natCharsAux_ne_nil (n + 1) n [] (Or.inr (by omega))

theorem digitChar_toNat {k : Nat} (h : k < 10) : (digitChar k).toNat = 48 + k := by
  interval_cases k <;> decide

theorem natCharsAux_toNat_le (fuel n : Nat) (acc : List Char)
    (hacc : ∀ c ∈ acc, 45 ≤ c.toNat ∧ c.toNat ≤ 57) :
    ∀ c ∈ natCharsAux fuel n acc, 45 ≤ c.toNat ∧ c.toNat ≤ 57 := by
  induction fuel generalizing n acc with
  | zero => exact hacc
  | succ fuel ih =>
    rw [natCharsAux]
    split
    · rename_i h
      intro c hc
      rcases List.mem_cons.mp hc with hc | hc
      · subst hc
        rw [digitChar_toNat h]
        omega
      · exact hacc c hc
    · refine ih (n / 10) _ ?_
      intro c hc
      rcases List.mem_cons.mp hc with hc | hc
      · subst hc
        rw [digitChar_toNat (Nat.mod_lt _ (by omega))]
        omega
      · exact hacc c hc

theorem natChars_toNat_le (n : Nat) : ∀ c ∈ natChars n, 45 ≤ c.toNat ∧ c.toNat ≤ 57 :=
  natCharsAux_toNat_le (n + 1) n [] (by simp)

theorem intChars_toNat_le (i : Int) : ∀ c ∈ intChars i, 45 ≤ c.toNat ∧ c.toNat ≤ 57 := by
  unfold intChars
  split
  · intro c hc
    rcases List.mem_cons.mp hc with hc | hc
    · subst hc; decide
    · exact natChars_toNat_le _ c hc
  · exact natChars_toNat_le _

theorem intChars_ne_nil (i : Int) : intChars i ≠ [] := by
  unfold intChars
  split
  · simp
  · exact natChars_ne_nil _

/-! Marker patterns scanned for by the probes (from `libbot.py`) -/

/-- Marker of a healthy YARN node (`"RUNNING" in line`). -/
def RUNNING : List Char := "RUNNING".data

/-- Per-host delimiter of the ping output (`"--- slave" in line`). -/
def slaveDelim : List Char := "--- slave".data

/-- Success marker of the ping output (`"transmitted" in line`). -/
def transmittedPat : List Char := "transmitted".data

/-- Problem marker of the jps listing (`"unavailable" in line`). -/
def unavailablePat : List Char := "unavailable".data

/-- Host-delimiter marker of the jps listing (`"--- " in line`). -/
def dashDelim : List Char := "--- ".data

/-- Worker-role marker of the Spark listing (`"spark" in line`). -/
def sparkPat : List Char := "spark".data

/-- Problem marker of the hdfs report (`"Dead" in line`). -/
def deadPat : List Char := "Dead".data

/-- Live-datanodes marker of the hdfs report (`"Live datanodes" in line`). -/
def livePat : List Char := "Live datanodes".data

/-- The degraded marker scanned for by `run_all` (`"red_circle" in self.msg`). -/
def rcPat : List Char := "red_circle".data

/-- The OK status glyph opening every healthy probe line. -/
def wcmPat : List Char := ":white_check_mark:".data

/-- The DEGRADED status glyph opening every degraded probe line. -/
def rcGlyph : List Char := ":red_circle:".data

/-- Python's `c.isnumeric()` restricted to the ASCII digits that occur in
the diagnostic fixtures. -/
def isNumChar (c : Char) : Bool := 48 ≤ c.toNat && c.toNat ≤ 57

/-- The ASCII apostrophe, used inside the hdfs remediation hint. -/
def squote : Char := Char.ofNat 39

/-! The five probes -/

/-- Model of `ClusterBot.check_yarn`: count lines containing `"RUNNING"`; OK iff the
count equals `nslave_expected`, otherwise a degraded line plus a
remediation hint. -/
def check_yarn (log : Log) (nslave_expected : Nat) : List Char :=
  let nslave := countContaining RUNNING log
  if nslave = nslave_expected then
    ":white_check_mark: YARN monitoring (".data ++ natChars nslave ++
      "/".data ++ natChars nslave_expected ++ " slaves up)\n".data
  else
    ":red_circle: YARN monitoring (".data ++ natChars nslave ++
      "/".data ++ natChars nslave_expected ++ " slaves up)\n".data ++
      "_run <yarn node -list -all> for more information_\n".data

/-- Model of `ClusterBot.check_executors`: the source's condition
`nslave == nslave_expected & nslave == nslaveok` is a Python chained
comparison whose middle operand is the bitwise AND
`nslave_expected & nslave`, i.e. it holds iff
`nslave = nslave_expected &&& nslave` and `nslave_expected &&& nslave = nslaveok`. -/
def check_executors (log : Log) (nslave_expected : Nat) : List Char :=
  let nslave := countContaining slaveDelim log
  let nslaveok := countContaining transmittedPat log
  if nslave = Nat.land nslave_expected nslave ∧
      Nat.land nslave_expected nslave = nslaveok then
    ":white_check_mark: Executors (".data ++ natChars nslaveok ++
      "/".data ++ natChars nslave_expected ++ " slaves up)\n".data
  else
    ":red_circle: Executors (".data ++ natChars nslaveok ++
      "/".data ++ natChars nslave_expected ++ " slaves up)\n".data ++
      "_run <ping -c 1 slave#> for more information_\n".data

/-- Model of `ClusterBot.check_jvms`: OK iff no line contains `"unavailable"`;
the degraded line reports `nslaves - problem` (Python integer
subtraction, hence `Int`). -/
def check_jvms (log : Log) (nslave_expected : Nat) : List Char :=
  let problem := countContaining unavailablePat log
  let nslaves := countContaining dashDelim log
  if problem = 0 then
    ":white_check_mark: inst. JVMs (".data ++ natChars nslaves ++
      "/".data ++ natChars nslave_expected ++ " slaves up)\n".data
  else
    ":red_circle: inst. JVMs (".data ++ intChars ((nslaves : Int) - (problem : Int)) ++
      "/".data ++ natChars nslave_expected ++ " slaves up)\n".data ++
      "_run <ssh slave# jps -lm> for more information_\n".data

/-- Model of `ClusterBot.check_spark`: the source's condition
`workers == nslaves & workers == nslave_expected` chains through the
bitwise AND `nslaves & workers`. -/
def check_spark (log : Log) (nslave_expected : Nat) : List Char :=
  let workers := countContaining sparkPat log
  let nslaves := countContaining dashDelim log
  if workers = Nat.land nslaves workers ∧
      Nat.land nslaves workers = nslave_expected then
    ":white_check_mark: Spark (".data ++ natChars nslaves ++
      "/".data ++ natChars nslave_expected ++ " slaves up)\n".data
  else
    ":red_circle: Spark (".data ++ natChars workers ++
      "/".data ++ natChars nslave_expected ++ " slaves up)\n".data ++
      "_run <ssh slave# jps -lm | grep spark> for more information_\n".data

/-- Remediation hint of the hdfs probe
(`_run <su -c 'hdfs dfsadmin -report' - hduser> for more information_`). -/
def hdfsHint : List Char :=
  "_run <su -c ".data ++ [squote] ++ "hdfs dfsadmin -report".data ++ [squote] ++
    " - hduser> for more information_\n".data

/-- Model of `ClusterBot.check_hdfs`: count lines containing `"Dead"` as problems;
take the FIRST line containing `"Live datanodes"` and the FIRST numeric
character on it as the live count.  The source's `[...][0]` indexings
raise `IndexError` when empty, modelled by `none`. -/
def check_hdfs (log : Log) (nnode_expected : Nat) : Option (List Char) :=
  let problem := countContaining deadPat log
  match (log.filter (fun l => containsSub livePat l)).head? with
  | none => none
  | some live_tmp =>
    match (live_tmp.filter isNumChar).head? with
    | none => none
    | some c =>
      let live := c.toNat - 48
      some (if problem = 0 then
        ":white_check_mark: HDFS (".data ++ natChars live ++
          "/".data ++ natChars nnode_expected ++ " DataNodes up)\n".data
      else
        ":red_circle: HDFS (".data ++ natChars live ++
          "/".data ++ natChars nnode_expected ++ " DataNodes up)\n".data ++
          hdfsHint)

/-! Reporter state: header, placeholders, and `run_all` -/

/-- Date selection of `ClusterBot.__init__`: the fixed sentinel in test
mode, the wall clock (`time.ctime()`, an external input `now`) otherwise. -/
def initDate (test : Bool) (now : List Char) : List Char :=
  if test then "TEST".data else now

/-- Header of the report message built in `ClusterBot.__init__`. -/
def headerMsg (date : List Char) : List Char :=
  "Cluster report (".data ++ date ++ ")\n--------------------\n".data

/-- Placeholder line for a disabled executors probe. -/
def exDisabled : List Char := ":black_circle: Executor monitoring disabled\n".data

/-- Placeholder line for a disabled jvms probe. -/
def jvmsDisabled : List Char := ":black_circle: JVMs monitoring disabled\n".data

/-- Placeholder line for a disabled yarn probe. -/
def yarnDisabled : List Char := ":black_circle: YARN monitoring disabled\n".data

/-- Placeholder line for a disabled hdfs probe. -/
def hdfsDisabled : List Char := ":black_circle: HDFS monitoring disabled\n".data

/-- Placeholder line for a disabled spark probe. -/
def sparkDisabled : List Char := ":black_circle: Spark monitoring disabled\n".data

/-- Username chosen when the degraded marker occurs in the message. -/
def problemName : List Char := "Problem(s) happened!".data

/-- Username chosen when the degraded marker does not occur. -/
def alrightName : List Char := "Cluster alright!".data

/-- Fixture logs read in test mode, one per subsystem. -/
structure Fixtures where
  executors : Log
  jvms : Log
  yarn : Log
  hdfs : Log
  spark : Log

/-- Model of `ClusterBot.run_all` in test mode: accumulate the message in
the source's fixed order (executors, jvms, yarn, hdfs, spark), each
subsystem contributing its probe line when its name is in `services` and
the fixed placeholder otherwise, then derive the username from a substring
scan for the degraded marker.  When `check_hdfs` raises, `run_all` is
aborted: `none`. -/
def run_all (services : List String) (fx : Fixtures) (date : List Char) :
    Option (List Char × List Char) :=
  let msg0 := headerMsg date
  let msg1 := msg0 ++ (if "executors" ∈ services then check_executors fx.executors 9 else exDisabled)
  let msg2 := msg1 ++ (if "jvms" ∈ services then check_jvms fx.jvms 9 else jvmsDisabled)
  let msg3 := msg2 ++ (if "yarn" ∈ services then check_yarn fx.yarn 9 else yarnDisabled)
  match (if "hdfs" ∈ services then check_hdfs fx.hdfs 9 else some hdfsDisabled) with
  | none => none
  | some chdfs =>
    let msg4 := msg3 ++ chdfs
    let msg5 := msg4 ++ (if "spark" ∈ services then check_spark fx.spark 9 else sparkDisabled)
    let username := if containsSub rcPat msg5 then problemName else alrightName
    some (msg5, username)

/-! Shared command/log utility -/

/-- Observable outcome of one `return_log` call: the returned lines, the
shell commands issued through `os.system`, and whether the sink file was
removed. -/
structure LogResult where
  data : List Line
  executed : List (List Char)
  removedSink : Bool
deriving DecidableEq

/-- Model of `return_log`: with a command, issue it redirected into the
sink; read the sink line by line into a fresh list; remove the sink
afterwards only when `clean_log` holds and a command was issued (`test`
is set exactly when `cmd is None`). -/
def return_log (cmd : Option (List Char)) (logname : List Char)
    (sink : List Line) (clean_log : Bool) : LogResult :=
  let launched := match cmd with
    | some c => [c ++ " >> ".data ++ logname]
    | none => []
  let test := cmd.isNone
  let data := sink.foldl (fun acc line => acc ++ [line]) []
  let removed := clean_log && !test
  let executed := if removed then launched ++ ["rm ".data ++ logname] else launched
  { data := data, executed := executed, removedSink := removed }

/-! Occurrence machinery: decomposing a substring occurrence across an
append.  An occurrence of `pat` in `u ++ v` lies in `u`, lies in `v`, or
splits into a nonempty suffix of `u` followed by a nonempty prefix of
`v`. -/

theorem prefix_append_cases {α : Type} {pat u v : List α} (h : pat <+: u ++ v) :
    pat <+: u ∨ ∃ q, pat = u ++ q ∧ q <+: v := by
  induction u generalizing pat with
  | nil => exact Or.inr ⟨pat, by simp, by simpa using h⟩
  | cons x u ih =>
    cases pat with
    | nil => exact Or.inl List.nil_prefix
    | cons y pat =>
      rw [List.cons_append, List.cons_prefix_cons] at h
      obtain ⟨rfl, h⟩ := h
      rcases ih h with h | ⟨q, rfl, hq⟩
      · exact Or.inl (List.cons_prefix_cons.mpr ⟨rfl, h⟩)
      · exact Or.inr ⟨q, by simp, hq⟩

theorem infix_append_cases {α : Type} {pat u v : List α} (h : pat <:+: u ++ v) :
    pat <:+: u ∨ pat <:+: v ∨
      ∃ p q, pat = p ++ q ∧ p ≠ [] ∧ q ≠ [] ∧ p <:+ u ∧ q <+: v := by
  induction u generalizing pat with
  | nil => exact Or.inr (Or.inl (by simpa using h))
  | cons x u ih =>
    rw [List.cons_append, List.infix_cons_iff] at h
    rcases h with h | h
    · rw [← List.cons_append] at h
      rcases prefix_append_cases h with h | ⟨q, rfl, hq⟩
      · exact Or.inl h.isInfix
      · by_cases hq0 : q = []
        · subst hq0
          exact Or.inl (by simp)
        · exact Or.inr (Or.inr ⟨x :: u, q, rfl, by simp, hq0, List.suffix_rfl, hq⟩)
    · rcases ih h with h | h | ⟨p, q, rfl, hp0, hq0, hp, hq⟩
      · exact Or.inl (List.infix_cons_iff.mpr (Or.inr h))
      · exact Or.inr (Or.inl h)
      · exact Or.inr (Or.inr ⟨p, q, rfl, hp0, hq0, hp.trans (List.suffix_cons x u), hq⟩)

theorem infix_of_left {α : Type} {pat u : List α} (h : pat <:+: u) (v : List α) :
    pat <:+: u ++ v :=
  h.trans (List.prefix_append u v).isInfix

theorem infix_of_right {α : Type} {pat v : List α} (u : List α) (h : pat <:+: v) :
    pat <:+: u ++ v :=
  h.trans (List.suffix_append u v).isInfix

/-- Separation through a middle block none of whose characters occur in the
pattern: an occurrence cannot touch the block, so it lies entirely left or
entirely right of it. -/
theorem infix_sep_mid {pat u mid v : List Char} (hp : pat ≠ []) (hmid : mid ≠ [])
    (hdisj : ∀ c ∈ mid, c ∉ pat) :
    pat <:+: u ++ (mid ++ v) ↔ pat <:+: u ∨ pat <:+: v := by
  constructor
  · intro h
    rcases infix_append_cases h with h | h | ⟨p, q, hpq, hp0, hq0, hpu, hqv⟩
    · exact Or.inl h
    · rcases infix_append_cases h with h | h | ⟨p, q, hpq, hp0, hq0, hpm, hqv⟩
      · exfalso
        cases pat with
        | nil => exact hp rfl
        | cons a pat =>
          exact hdisj a (h.subset (List.mem_cons_self a pat)) (List.mem_cons_self a pat)
      · exact Or.inr h
      · exfalso
        cases p with
        | nil => exact hp0 rfl
        | cons a p =>
          refine hdisj a (hpm.subset (List.mem_cons_self a p)) ?_
          rw [hpq]
          exact List.mem_append_left q (List.mem_cons_self a p)
    · exfalso
      cases q with
      | nil => exact hq0 rfl
      | cons a q =>
        cases mid with
        | nil => exact hmid rfl
        | cons m mid =>
          have ham : a = m := by
            rw [List.cons_append, List.cons_prefix_cons] at hqv
            exact hqv.1
          refine hdisj a (by simp [ham]) ?_
          rw [hpq]
          exact List.mem_append_right p (List.mem_cons_self a q)
  · rintro (h | h)
    · exact infix_of_left h _
    · rw [← List.append_assoc]
      exact infix_of_right _ h

/-- Separation at a boundary whose left side ends in a character that does
not occur in the pattern. -/
theorem infix_append_endc {pat u v : List Char} (c : Char)
    (hc : c ∉ pat) (hu : [c] <:+ u) :
    pat <:+: u ++ v ↔ pat <:+: u ∨ pat <:+: v := by
  constructor
  · intro h
    rcases infix_append_cases h with h | h | ⟨p, q, hpq, hp0, hq0, hpu, hqv⟩
    · exact Or.inl h
    · exact Or.inr h
    · exfalso
      apply hc
      rcases List.suffix_or_suffix_of_suffix hpu hu with h1 | h1
      · cases p with
        | nil => exact absurd rfl hp0
        | cons a p =>
          have ha : a = c := by simpa using h1.subset (List.mem_cons_self a p)
          rw [hpq]
          exact List.mem_append_left q (by simp [← ha])
      · have : c ∈ p := h1.subset (List.mem_cons_self c [])
        rw [hpq]
        exact List.mem_append_left q this
  · rintro (h | h)
    · exact infix_of_left h _
    · exact infix_of_right _ h

/-- Separation at a boundary whose right side starts with a character that
does not occur in the pattern. -/
theorem infix_append_startc {pat u v : List Char} (c : Char)
    (hc : c ∉ pat) (hv : [c] <+: v) :
    pat <:+: u ++ v ↔ pat <:+: u ∨ pat <:+: v := by
  constructor
  · intro h
    rcases infix_append_cases h with h | h | ⟨p, q, hpq, hp0, hq0, hpu, hqv⟩
    · exact Or.inl h
    · exact Or.inr h
    · exfalso
      apply hc
      rcases List.prefix_or_prefix_of_prefix hqv hv with h1 | h1
      · cases q with
        | nil => exact absurd rfl hq0
        | cons a q =>
          have ha : a = c := by simpa using h1.subset (List.mem_cons_self a q)
          rw [hpq]
          exact List.mem_append_right p (by simp [← ha])
      · have : c ∈ q := h1.subset (List.mem_cons_self c [])
        rw [hpq]
        exact List.mem_append_right p this
  · rintro (h | h)
    · exact infix_of_left h _
    · exact infix_of_right _ h

/-- A message ends with a newline. -/
abbrev endsNL (l : List Char) : Prop := ['\n'] <:+ l

theorem endsNL_append (u : List Char) {v : List Char} (h : endsNL v) : endsNL (u ++ v) :=
  h.trans (List.suffix_append u v)

/-- Separation at a newline boundary: every rendered line ends in a
newline, and the degraded marker contains none. -/
theorem infix_append_nl {pat u v : List Char} (hc : '\n' ∉ pat) (hu : endsNL u) :
    pat <:+: u ++ v ↔ pat <:+: u ∨ pat <:+: v :=
  infix_append_endc '\n' hc hu

/-! Status rendering predicates and the degraded-marker characterisation -/

/-- A rendered probe line carries the OK glyph. -/
abbrev renderedOK (m : List Char) : Prop := wcmPat <+: m

/-- A rendered probe line carries the DEGRADED glyph. -/
abbrev renderedDegraded (m : List Char) : Prop := rcGlyph <+: m

theorem rc_ne_nil : rcPat ≠ [] := by decide

theorem rc_chars_ge : ∀ c ∈ rcPat, 95 ≤ c.toNat := by decide

theorem nl_not_rc : '\n' ∉ rcPat := by decide

/-- Characters rendered by the numeric formatters never occur in the
degraded marker. -/
theorem num_disjoint_rc {d : List Char} (hd : ∀ c ∈ d, 45 ≤ c.toNat ∧ c.toNat ≤ 57) :
    ∀ c ∈ d, c ∉ rcPat := by
  intro c hc hrc
  have h1 := hd c hc
  have h2 := rc_chars_ge c hrc
  omega

/-- No occurrence of the degraded marker in a message of the common shape
`text ++ number ++ text ++ number ++ text` whose fixed texts are free of
it. -/
theorem no_rc_num_msg {A B C d1 d2 : List Char}
    (hA : ¬ rcPat <:+: A) (hB : ¬ rcPat <:+: B) (hC : ¬ rcPat <:+: C)
    (h1 : d1 ≠ []) (h2 : d2 ≠ [])
    (hd1 : ∀ c ∈ d1, 45 ≤ c.toNat ∧ c.toNat ≤ 57)
    (hd2 : ∀ c ∈ d2, 45 ≤ c.toNat ∧ c.toNat ≤ 57) :
    ¬ rcPat <:+: A ++ d1 ++ B ++ d2 ++ C := by
  intro h
  rw [List.append_assoc, List.append_assoc, List.append_assoc,
    infix_sep_mid rc_ne_nil h1 (num_disjoint_rc hd1)] at h
  rcases h with h | h
  · exact hA h
  · rw [infix_sep_mid rc_ne_nil h2 (num_disjoint_rc hd2)] at h
    rcases h with h | h
    · exact hB h
    · exact hC h

theorem rc_check_yarn (log : Log) (e : Nat) :
    rcPat <:+: check_yarn log e ↔ countContaining RUNNING log ≠ e := by
  simp only [check_yarn]
  rcases eq_or_ne (countContaining RUNNING log) e with h | h
  · rw [if_pos h]
    exact iff_of_false
      (no_rc_num_msg (by decide) (by decide) (by decide)
        (natChars_ne_nil _) (natChars_ne_nil _) (natChars_toNat_le _) (natChars_toNat_le _))
      (not_not_intro h)
  · rw [if_neg h]
    refine iff_of_true ?_ h
    simp only [List.append_assoc]
    exact infix_of_left (by decide) _

theorem rc_check_executors (log : Log) (e : Nat) :
    rcPat <:+: check_executors log e ↔
      ¬(countContaining slaveDelim log = Nat.land e (countContaining slaveDelim log) ∧
        Nat.land e (countContaining slaveDelim log) = countContaining transmittedPat log) := by
  simp only [check_executors]
  by_cases h : countContaining slaveDelim log = Nat.land e (countContaining slaveDelim log) ∧
      Nat.land e (countContaining slaveDelim log) = countContaining transmittedPat log
  · rw [if_pos h]
    exact iff_of_false
      (no_rc_num_msg (by decide) (by decide) (by decide)
        (natChars_ne_nil _) (natChars_ne_nil _) (natChars_toNat_le _) (natChars_toNat_le _))
      (not_not_intro h)
  · rw [if_neg h]
    refine iff_of_true ?_ h
    simp only [List.append_assoc]
    exact infix_of_left (by decide) _

theorem rc_check_jvms (log : Log) (e : Nat) :
    rcPat <:+: check_jvms log e ↔ countContaining unavailablePat log ≠ 0 := by
  simp only [check_jvms]
  rcases eq_or_ne (countContaining unavailablePat log) 0 with h | h
  · rw [if_pos h]
    exact iff_of_false
      (no_rc_num_msg (by decide) (by decide) (by decide)
        (natChars_ne_nil _) (natChars_ne_nil _) (natChars_toNat_le _) (natChars_toNat_le _))
      (not_not_intro h)
  · rw [if_neg h]
    refine iff_of_true ?_ h
    simp only [List.append_assoc]
    exact infix_of_left (by decide) _

theorem rc_check_spark (log : Log) (e : Nat) :
    rcPat <:+: check_spark log e ↔
      ¬(countContaining sparkPat log = Nat.land (countContaining dashDelim log) (countContaining sparkPat log) ∧
        Nat.land (countContaining dashDelim log) (countContaining sparkPat log) = e) := by
  simp only [check_spark]
  by_cases h : countContaining sparkPat log = Nat.land (countContaining dashDelim log) (countContaining sparkPat log) ∧
      Nat.land (countContaining dashDelim log) (countContaining sparkPat log) = e
  · rw [if_pos h]
    exact iff_of_false
      (no_rc_num_msg (by decide) (by decide) (by decide)
        (natChars_ne_nil _) (natChars_ne_nil _) (natChars_toNat_le _) (natChars_toNat_le _))
      (not_not_intro h)
  · rw [if_neg h]
    refine iff_of_true ?_ h
    simp only [List.append_assoc]
    exact infix_of_left (by decide) _

theorem rc_check_hdfs {log : Log} {e : Nat} {m : List Char}
    (h : check_hdfs log e = some m) :
    rcPat <:+: m ↔ countContaining deadPat log ≠ 0 := by
  simp only [check_hdfs] at h
  split at h
  · cases h
  · split at h
    · cases h
    · simp only [Option.some_inj] at h
      subst h
      rcases eq_or_ne (countContaining deadPat log) 0 with hd | hd
      · rw [if_pos hd]
        exact iff_of_false
          (no_rc_num_msg (by decide) (by decide) (by decide)
            (natChars_ne_nil _) (natChars_ne_nil _) (natChars_toNat_le _) (natChars_toNat_le _))
          (not_not_intro hd)
      · rw [if_neg hd]
        refine iff_of_true ?_ hd
        simp only [List.append_assoc]
        exact infix_of_left (by decide) _

/-! Every rendered contribution ends in a newline. -/

theorem check_yarn_endsNL (log : Log) (e : Nat) : endsNL (check_yarn log e) := by
  simp only [check_yarn]
  split
  · exact endsNL_append _ (by decide)
  · exact endsNL_append _ (by decide)

theorem check_executors_endsNL (log : Log) (e : Nat) : endsNL (check_executors log e) := by
  simp only [check_executors]
  split
  · exact endsNL_append _ (by decide)
  · exact endsNL_append _ (by decide)

theorem check_jvms_endsNL (log : Log) (e : Nat) : endsNL (check_jvms log e) := by
  simp only [check_jvms]
  split
  · exact endsNL_append _ (by decide)
  · exact endsNL_append _ (by decide)

theorem check_spark_endsNL (log : Log) (e : Nat) : endsNL (check_spark log e) := by
  simp only [check_spark]
  split
  · exact endsNL_append _ (by decide)
  · exact endsNL_append _ (by decide)

theorem check_hdfs_endsNL {log : Log} {e : Nat} {m : List Char}
    (h : check_hdfs log e = some m) : endsNL m := by
  simp only [check_hdfs] at h
  split at h
  · cases h
  · split at h
    · cases h
    · simp only [Option.some_inj] at h
      subst h
      split
      · exact endsNL_append _ (by decide)
      · refine endsNL_append _ ?_
        show endsNL hdfsHint
        unfold hdfsHint
        exact endsNL_append _ (by decide)

theorem headerMsg_endsNL (d : List Char) : endsNL (headerMsg d) :=
  endsNL_append _ (by decide)

/-! Per-subsystem contributions appended by `run_all`, and the per-probe
degraded conditions (negations of the source's OK conditions at the
default expected count 9 used by `run_all`). -/

/-- Contribution of the executors subsystem to the report. -/
def exContrib (s : List String) (fx : Fixtures) : List Char :=
  if "executors" ∈ s then check_executors fx.executors 9 else exDisabled

/-- Contribution of the jvms subsystem to the report. -/
def jvmsContrib (s : List String) (fx : Fixtures) : List Char :=
  if "jvms" ∈ s then check_jvms fx.jvms 9 else jvmsDisabled

/-- Contribution of the yarn subsystem to the report. -/
def yarnContrib (s : List String) (fx : Fixtures) : List Char :=
  if "yarn" ∈ s then check_yarn fx.yarn 9 else yarnDisabled

/-- Contribution of the hdfs subsystem (optional: its probe can raise). -/
def hdfsContribOpt (s : List String) (fx : Fixtures) : Option (List Char) :=
  if "hdfs" ∈ s then check_hdfs fx.hdfs 9 else some hdfsDisabled

/-- Contribution of the spark subsystem to the report. -/
def sparkContrib (s : List String) (fx : Fixtures) : List Char :=
  if "spark" ∈ s then check_spark fx.spark 9 else sparkDisabled

/-- DEGRADED condition of the executors probe, from the source. -/
def exDegraded (log : Log) : Prop :=
  ¬(countContaining slaveDelim log = Nat.land 9 (countContaining slaveDelim log) ∧
    Nat.land 9 (countContaining slaveDelim log) = countContaining transmittedPat log)

/-- DEGRADED condition of the jvms probe, from the source. -/
def jvmsDegraded (log : Log) : Prop := countContaining unavailablePat log ≠ 0

/-- DEGRADED condition of the yarn probe, from the source. -/
def yarnDegraded (log : Log) : Prop := countContaining RUNNING log ≠ 9

/-- DEGRADED condition of the hdfs probe, from the source. -/
def hdfsDegraded (log : Log) : Prop := countContaining deadPat log ≠ 0

/-- DEGRADED condition of the spark probe, from the source. -/
def sparkDegraded (log : Log) : Prop :=
  ¬(countContaining sparkPat log = Nat.land (countContaining dashDelim log) (countContaining sparkPat log) ∧
    Nat.land (countContaining dashDelim log) (countContaining sparkPat log) = 9)

/-- Some enabled probe is DEGRADED. -/
def enabledDegraded (s : List String) (fx : Fixtures) : Prop :=
  ("executors" ∈ s ∧ exDegraded fx.executors) ∨ ("jvms" ∈ s ∧ jvmsDegraded fx.jvms) ∨
  ("yarn" ∈ s ∧ yarnDegraded fx.yarn) ∨ ("hdfs" ∈ s ∧ hdfsDegraded fx.hdfs) ∨
  ("spark" ∈ s ∧ sparkDegraded fx.spark)

theorem run_all_eq (s : List String) (fx : Fixtures) (d : List Char) :
    run_all s fx d = (hdfsContribOpt s fx).map (fun c4 =>
      let msg := headerMsg d ++ exContrib s fx ++ jvmsContrib s fx ++ yarnContrib s fx ++
        c4 ++ sparkContrib s fx
      (msg, if containsSub rcPat msg then problemName else alrightName)) := by
  unfold run_all hdfsContribOpt exContrib jvmsContrib yarnContrib sparkContrib
  cases hh : (if "hdfs" ∈ s then check_hdfs fx.hdfs 9 else some hdfsDisabled) <;> rfl

theorem rc_exContrib (s : List String) (fx : Fixtures) :
    rcPat <:+: exContrib s fx ↔ ("executors" ∈ s ∧ exDegraded fx.executors) := by
  unfold exContrib
  split
  · rename_i h
    rw [rc_check_executors]
    unfold exDegraded
    simp [h]
  · rename_i h
    exact iff_of_false (by decide) (fun hc => h hc.1)

theorem rc_jvmsContrib (s : List String) (fx : Fixtures) :
    rcPat <:+: jvmsContrib s fx ↔ ("jvms" ∈ s ∧ jvmsDegraded fx.jvms) := by
  unfold jvmsContrib
  split
  · rename_i h
    rw [rc_check_jvms]
    unfold jvmsDegraded
    simp [h]
  · rename_i h
    exact iff_of_false (by decide) (fun hc => h hc.1)

theorem rc_yarnContrib (s : List String) (fx : Fixtures) :
    rcPat <:+: yarnContrib s fx ↔ ("yarn" ∈ s ∧ yarnDegraded fx.yarn) := by
  unfold yarnContrib
  split
  · rename_i h
    rw [rc_check_yarn]
    unfold yarnDegraded
    simp [h]
  · rename_i h
    exact iff_of_false (by decide) (fun hc => h hc.1)

theorem rc_sparkContrib (s : List String) (fx : Fixtures) :
    rcPat <:+: sparkContrib s fx ↔ ("spark" ∈ s ∧ sparkDegraded fx.spark) := by
  unfold sparkContrib
  split
  · rename_i h
    rw [rc_check_spark]
    unfold sparkDegraded
    simp [h]
  · rename_i h
    exact iff_of_false (by decide) (fun hc => h hc.1)

theorem rc_hdfsContrib {s : List String} {fx : Fixtures} {c4 : List Char}
    (hc4 : hdfsContribOpt s fx = some c4) :
    rcPat <:+: c4 ↔ ("hdfs" ∈ s ∧ hdfsDegraded fx.hdfs) := by
  unfold hdfsContribOpt at hc4
  split at hc4
  · rename_i h
    rw [rc_check_hdfs hc4]
    unfold hdfsDegraded
    simp [h]
  · rename_i h
    simp only [Option.some_inj] at hc4
    subst hc4
    exact iff_of_false (by decide) (fun hc => h hc.1)

theorem hdfsContrib_endsNL {s : List String} {fx : Fixtures} {c4 : List Char}
    (hc4 : hdfsContribOpt s fx = some c4) : endsNL c4 := by
  unfold hdfsContribOpt at hc4
  split at hc4
  · exact check_hdfs_endsNL hc4
  · simp only [Option.some_inj] at hc4
    subst hc4
    decide

theorem exContrib_endsNL (s : List String) (fx : Fixtures) : endsNL (exContrib s fx) := by
  unfold exContrib
  split
  · exact check_executors_endsNL _ _
  · decide

theorem jvmsContrib_endsNL (s : List String) (fx : Fixtures) : endsNL (jvmsContrib s fx) := by
  unfold jvmsContrib
  split
  · exact check_jvms_endsNL _ _
  · decide

theorem yarnContrib_endsNL (s : List String) (fx : Fixtures) : endsNL (yarnContrib s fx) := by
  unfold yarnContrib
  split
  · exact check_yarn_endsNL _ _
  · decide

theorem sparkContrib_endsNL (s : List String) (fx : Fixtures) : endsNL (sparkContrib s fx) := by
  unfold sparkContrib
  split
  · exact check_spark_endsNL _ _
  · decide

/-- The degraded marker never occurs in the report header, provided it does
not occur in the date (which is `TEST` in test mode). -/
theorem rc_headerMsg {d : List Char} (hd : ¬ rcPat <:+: d) : ¬ rcPat <:+: headerMsg d := by
  unfold headerMsg
  rw [List.append_assoc, infix_append_endc '(' (by decide) (by decide),
    infix_append_startc ')' (by decide) (by decide)]
  rintro (h | h | h)
  · exact absurd h (by decide)
  · exact hd h
  · exact absurd h (by decide)

theorem containsSub_iff (pat l : List Char) : containsSub pat l = true ↔ pat <:+: l := by
  simp [containsSub]

theorem run_all_parts {s : List String} {fx : Fixtures} {d msg u : List Char}
    (h : run_all s fx d = some (msg, u)) :
    ∃ c4, hdfsContribOpt s fx = some c4 ∧
      msg = headerMsg d ++ exContrib s fx ++ jvmsContrib s fx ++ yarnContrib s fx ++
        c4 ++ sparkContrib s fx ∧
      u = (if containsSub rcPat msg then problemName else alrightName) := by
  rw [run_all_eq] at h
  cases hc4 : hdfsContribOpt s fx with
  | none => rw [hc4] at h; cases h
  | some c4 =>
    rw [hc4] at h
    simp only [Option.map_some', Option.some_inj, Prod.mk.injEq] at h
    obtain ⟨h1, h2⟩ := h
    exact ⟨c4, rfl, h1.symm, by rw [← h2, h1]⟩

/-- The substring scan of the accumulated message computes exactly the OR
of the enabled probes' DEGRADED statuses. -/
theorem rc_msg_iff {s : List String} {fx : Fixtures} {d msg u : List Char}
    (hd : ¬ rcPat <:+: d) (h : run_all s fx d = some (msg, u)) :
    (rcPat <:+: msg ↔ enabledDegraded s fx) := by
  obtain ⟨c4, hc4, hmsg, -⟩ := run_all_parts h
  subst hmsg
  simp only [List.append_assoc]
  rw [infix_append_nl nl_not_rc (headerMsg_endsNL d),
    infix_append_nl nl_not_rc (exContrib_endsNL s fx),
    infix_append_nl nl_not_rc (jvmsContrib_endsNL s fx),
    infix_append_nl nl_not_rc (yarnContrib_endsNL s fx),
    infix_append_nl nl_not_rc (hdfsContrib_endsNL hc4),
    rc_exContrib, rc_jvmsContrib, rc_yarnContrib, rc_hdfsContrib hc4, rc_sparkContrib,
    or_iff_right (rc_headerMsg hd)]
  exact Iff.rfl

/-! Prefix/suffix helpers for the rendered-status facts -/

theorem prefix_extend {P A : List Char} (rest : List Char) (h : P <+: A) : P <+: A ++ rest :=
  h.trans (List.prefix_append A rest)

theorem suffix_extend {P v : List Char} (u : List Char) (h : P <:+ v) : P <:+ u ++ v :=
  h.trans (List.suffix_append u v)

theorem not_prefix_of_append {P B : List Char} (rest : List Char)
    (hPB : ¬ P <+: B) (hlen : P.length ≤ B.length) : ¬ P <+: B ++ rest := by
  intro h
  rcases prefix_append_cases h with h | ⟨q, hq, -⟩
  · exact hPB h
  · apply hPB
    have hql : q.length = 0 := by
      have := congrArg List.length hq
      simp only [List.length_append] at this
      omega
    rw [hq, List.length_eq_zero.mp hql, List.append_nil]

/-! Concrete fixtures used by the witnesses and counterexamples -/

/-- The test-mode date sentinel. -/
def dateT : List Char := ("TEST").data

/-- A wall-clock reading. -/
def nowA : List Char := ("Mon Oct 12 10:00:00 2026").data

/-- Another wall-clock reading. -/
def nowB : List Char := ("Tue Oct 13 11:30:00 2026").data

/-- Empty fixture set. -/
def fxEmpty : Fixtures := ⟨[], [], [], [], []⟩

/-- A yarn listing with only 8 RUNNING nodes. -/
def yarnFixFail : Log := List.replicate 8 (("node1 RUNNING ok").data)

/-- Fixtures whose yarn log shows 8 of 9 nodes. -/
def fxYarnFail : Fixtures := { fxEmpty with yarn := yarnFixFail }

/-- The report produced when only yarn is enabled on `fxYarnFail`. -/
def msgYarnFail : List Char :=
  headerMsg dateT ++ exDisabled ++ jvmsDisabled ++ check_yarn yarnFixFail 9 ++
    hdfsDisabled ++ sparkDisabled

/-- The report produced when nothing is enabled. -/
def msgAllDisabled : List Char :=
  headerMsg dateT ++ exDisabled ++ jvmsDisabled ++ yarnDisabled ++
    hdfsDisabled ++ sparkDisabled

/-- A jps listing with 9 host delimiters and exactly one unavailable marker. -/
def jvmFixFail : Log :=
  List.replicate 9 (("--- 1 ---").data) ++ [("datacollector service unavailable").data]

/-- A ping log with 8 attempted hosts, all 8 successful (expected is 9). -/
def exFixAmbig : Log :=
  List.replicate 8 (("--- slave1 ping statistics ---").data) ++
    List.replicate 8 (("1 packets transmitted, 1 received, 0% packet loss").data)

/-- A worker listing with 11 host delimiters and 9 spark workers. -/
def sparkFixAmbig : Log :=
  List.replicate 11 (("--- 1 ---").data) ++
    List.replicate 9 (("12345 org.apache.spark.deploy.worker.Worker").data)

/-- An hdfs report whose live count is the two-digit number 12. -/
def hdfsFixTwelve : Log := [("Live datanodes: 12").data]

/-- What the source renders on `hdfsFixTwelve`: the first digit only. -/
def hdfsOutOne : List Char := (":white_check_mark: HDFS (1/9 DataNodes up)\n").data

/-- What the claim expects on `hdfsFixTwelve`: the full number 12. -/
def hdfsOutTwelve : List Char := (":white_check_mark: HDFS (12/9 DataNodes up)\n").data

/-- An hdfs report with no live-datanodes marker line. -/
def hdfsFixNoMarker : Log := [("Configured Capacity: 100").data]

/-! Claim theorems -/

/-- C1: for every input log, `check_yarn` renders status OK iff the number
of lines containing "RUNNING" equals `nslave_expected` exactly; for every
other integer relationship (including a count greater than expected) it
renders status DEGRADED and appends the one-line remediation hint naming
the inspection command. -/
theorem check_yarn_exact_equality (log : Log) (e : Nat) :
    (renderedOK (check_yarn log e) ↔ countContaining RUNNING log = e) ∧
    (countContaining RUNNING log ≠ e →
      renderedDegraded (check_yarn log e) ∧
      ("_run <yarn node -list -all> for more information_\n").data <:+: check_yarn log e) := by
  simp only [check_yarn]
  rcases eq_or_ne (countContaining RUNNING log) e with h | h
  · rw [if_pos h]
    refine ⟨iff_of_true ?_ h, fun hne => absurd h hne⟩
    simp only [List.append_assoc]
    exact prefix_extend _ (by decide)
  · rw [if_neg h]
    constructor
    · refine iff_of_false ?_ h
      simp only [List.append_assoc]
      exact not_prefix_of_append _ (by decide) (by decide)
    · intro _
      constructor
      · simp only [List.append_assoc]
        exact prefix_extend _ (by decide)
      · simp only [List.append_assoc]
        exact (suffix_extend _ (suffix_extend _ (suffix_extend _ (suffix_extend _
          (suffix_extend _ List.suffix_rfl))))).isInfix

/-- Witness for C1 at a concrete 8-of-9 log. -/
theorem check_yarn_exact_equality_witness :
    renderedDegraded (check_yarn yarnFixFail 9) ∧
    ("_run <yarn node -list -all> for more information_\n").data <:+: check_yarn yarnFixFail 9 :=
  (check_yarn_exact_equality yarnFixFail 9).2 (by decide)

/-- C6: for every input log, `check_jvms` renders status OK iff the number
of lines containing the "unavailable" marker is zero; when that count is
nonzero the DEGRADED line reports the host-delimiter count minus the
problem count. -/
theorem check_jvms_problem_policy (log : Log) (e : Nat) :
    (renderedOK (check_jvms log e) ↔ countContaining unavailablePat log = 0) ∧
    (countContaining unavailablePat log ≠ 0 →
      renderedDegraded (check_jvms log e) ∧
      check_jvms log e =
        (":red_circle: inst. JVMs (").data ++
          intChars ((countContaining dashDelim log : Int) -
            (countContaining unavailablePat log : Int)) ++
          ("/").data ++ natChars e ++ (" slaves up)\n").data ++
          ("_run <ssh slave# jps -lm> for more information_\n").data) := by
  simp only [check_jvms]
  rcases eq_or_ne (countContaining unavailablePat log) 0 with h | h
  · rw [if_pos h]
    refine ⟨iff_of_true ?_ h, fun hne => absurd h hne⟩
    simp only [List.append_assoc]
    exact prefix_extend _ (by decide)
  · rw [if_neg h]
    constructor
    · refine iff_of_false ?_ h
      simp only [List.append_assoc]
      exact not_prefix_of_append _ (by decide) (by decide)
    · intro _
      refine ⟨?_, rfl⟩
      simp only [List.append_assoc]
      exact prefix_extend _ (by decide)

/-- Witness for C6: 9 host delimiters and exactly 1 unavailable marker
yield a DEGRADED line reporting 8/9. -/
theorem check_jvms_problem_policy_witness :
    (renderedDegraded (check_jvms jvmFixFail 9) ∧
      check_jvms jvmFixFail 9 =
        (":red_circle: inst. JVMs (").data ++
          intChars ((countContaining dashDelim jvmFixFail : Int) -
            (countContaining unavailablePat jvmFixFail : Int)) ++
          ("/").data ++ natChars 9 ++ (" slaves up)\n").data ++
          ("_run <ssh slave# jps -lm> for more information_\n").data) ∧
    check_jvms jvmFixFail 9 =
      (":red_circle: inst. JVMs (8/9 slaves up)\n").data ++
        ("_run <ssh slave# jps -lm> for more information_\n").data :=
  ⟨(check_jvms_problem_policy jvmFixFail 9).2 (by decide), by decide⟩

/-- C2 is refuted on the code: the Python condition
`nslave == nslave_expected & nslave == nslaveok` chains through a bitwise
AND, so a ping log with 8 attempts and 8 successes (expected 9) renders
OK, and a worker log with 9 spark lines and 11 host delimiters (expected
9) renders OK. -/
theorem check_executors_spark_bitwise_eval :
    (renderedOK (check_executors exFixAmbig 9) ∧
      countContaining slaveDelim exFixAmbig = 8 ∧
      countContaining transmittedPat exFixAmbig = 8) ∧
    (renderedOK (check_spark sparkFixAmbig 9) ∧
      countContaining sparkPat sparkFixAmbig = 9 ∧
      countContaining dashDelim sparkFixAmbig = 11) := by decide

/-- C4 is refuted on the code: on a report whose marker line reads
"Live datanodes: 12" the source extracts only the first numeric character
and reports 1 live node, not 12. -/
theorem check_hdfs_first_digit_eval :
    check_hdfs hdfsFixTwelve 9 = some hdfsOutOne ∧ hdfsOutOne ≠ hdfsOutTwelve := by decide

/-- C5 counterexample: on a log with no "Live datanodes" line, `check_hdfs`
raises (modelled as `none`) instead of recovering with a zero count and a
DEGRADED line. -/
theorem check_hdfs_missing_marker_cex : check_hdfs hdfsFixNoMarker 9 = none := by decide

/-- C5 amended: on every log with no "Live datanodes" line, `check_hdfs`
raises `IndexError` (modelled as `none`); it does not recover locally. -/
theorem check_hdfs_missing_marker_raises (log : Log) (e : Nat)
    (h : ∀ l ∈ log, ¬ livePat <:+: l) : check_hdfs log e = none := by
  have hf : log.filter (fun l => containsSub livePat l) = [] := by
    rw [List.filter_eq_nil_iff]
    intro a ha
    simpa [containsSub] using h a ha
  simp only [check_hdfs, hf]
  rfl

/-- Witness for the amended C5. -/
theorem check_hdfs_missing_marker_raises_witness : check_hdfs hdfsFixNoMarker 9 = none :=
  check_hdfs_missing_marker_raises hdfsFixNoMarker 9 (by decide)

/-- C3: after a completed `run_all`, the verdict (username) is
"Problem(s) happened!" iff at least one enabled probe is DEGRADED, and
otherwise "Cluster alright!"; with zero subsystems enabled it is
"Cluster alright!". -/
theorem run_all_overall_verdict {s : List String} {fx : Fixtures} {d msg u : List Char}
    (hd : ¬ rcPat <:+: d) (h : run_all s fx d = some (msg, u)) :
    (u = problemName ↔ enabledDegraded s fx) ∧
    (¬ enabledDegraded s fx → u = alrightName) ∧
    ((∀ n : String, n ∉ s) → u = alrightName) := by
  obtain ⟨c4, hc4, hmsg, hu⟩ := run_all_parts h
  have hiff := rc_msg_iff hd h
  by_cases hrc : rcPat <:+: msg
  · have hED := hiff.mp hrc
    rw [hu, if_pos ((containsSub_iff _ _).mpr hrc)]
    refine ⟨iff_of_true rfl hED, fun hnot => absurd hED hnot, fun hnone => ?_⟩
    exfalso
    rcases hED with ⟨hm, -⟩ | ⟨hm, -⟩ | ⟨hm, -⟩ | ⟨hm, -⟩ | ⟨hm, -⟩ <;> exact hnone _ hm
  · have hED : ¬ enabledDegraded s fx := fun hed => hrc (hiff.mpr hed)
    rw [hu, if_neg (fun hcs => hrc ((containsSub_iff _ _).mp hcs))]
    exact ⟨iff_of_false (by decide) hED, fun _ => rfl, fun _ => rfl⟩

/-- Witness for C3: with yarn enabled on an 8-of-9 log the verdict is the
problem username. -/
theorem run_all_overall_verdict_witness :
    problemName = problemName ↔ enabledDegraded ["yarn"] fxYarnFail :=
  (run_all_overall_verdict (by decide)
    (show run_all ["yarn"] fxYarnFail dateT = some (msgYarnFail, problemName) by decide)).1

/-- C7: `run_all` appends exactly one contribution per subsystem in the
fixed canonical order executors, jvms, yarn, hdfs, spark; enabled
subsystems contribute their probe line, disabled ones the fixed
placeholder; the outcome depends on the selection only through
membership (order, duplicates and unknown names are irrelevant). -/
theorem run_all_canonical_order (s1 s2 : List String) (fx : Fixtures) (d : List Char)
    (hmem : ∀ n : String, n ∈ s1 ↔ n ∈ s2) :
    run_all s1 fx d = run_all s2 fx d ∧
    (∀ msg u, run_all s1 fx d = some (msg, u) →
      ∃ c4, hdfsContribOpt s1 fx = some c4 ∧
        msg = headerMsg d ++ exContrib s1 fx ++ jvmsContrib s1 fx ++ yarnContrib s1 fx ++
          c4 ++ sparkContrib s1 fx) ∧
    (("executors" ∈ s1 → exContrib s1 fx = check_executors fx.executors 9) ∧
      ("executors" ∉ s1 → exContrib s1 fx = exDisabled)) ∧
    (("jvms" ∈ s1 → jvmsContrib s1 fx = check_jvms fx.jvms 9) ∧
      ("jvms" ∉ s1 → jvmsContrib s1 fx = jvmsDisabled)) ∧
    (("yarn" ∈ s1 → yarnContrib s1 fx = check_yarn fx.yarn 9) ∧
      ("yarn" ∉ s1 → yarnContrib s1 fx = yarnDisabled)) ∧
    (("hdfs" ∈ s1 → hdfsContribOpt s1 fx = check_hdfs fx.hdfs 9) ∧
      ("hdfs" ∉ s1 → hdfsContribOpt s1 fx = some hdfsDisabled)) ∧
    (("spark" ∈ s1 → sparkContrib s1 fx = check_spark fx.spark 9) ∧
      ("spark" ∉ s1 → sparkContrib s1 fx = sparkDisabled)) := by
  refine ⟨?_, ?_, ⟨fun h => by unfold exContrib; rw [if_pos h],
      fun h => by unfold exContrib; rw [if_neg h]⟩,
    ⟨fun h => by unfold jvmsContrib; rw [if_pos h],
      fun h => by unfold jvmsContrib; rw [if_neg h]⟩,
    ⟨fun h => by unfold yarnContrib; rw [if_pos h],
      fun h => by unfold yarnContrib; rw [if_neg h]⟩,
    ⟨fun h => by unfold hdfsContribOpt; rw [if_pos h],
      fun h => by unfold hdfsContribOpt; rw [if_neg h]⟩,
    ⟨fun h => by unfold sparkContrib; rw [if_pos h],
      fun h => by unfold sparkContrib; rw [if_neg h]⟩⟩
  · simp only [run_all, propext (hmem "executors"), propext (hmem "jvms"),
      propext (hmem "yarn"), propext (hmem "hdfs"), propext (hmem "spark")]
  · intro msg u h
    obtain ⟨c4, hc4, hmsg, -⟩ := run_all_parts h
    exact ⟨c4, hc4, hmsg⟩

/-- Witness for C7 at selections that are equal as sets but differ in
order, duplicates, and an unknown name. -/
theorem run_all_canonical_order_witness :
    run_all ["spark", "yarn", "spark", "bogus"] fxEmpty dateT =
      run_all ["bogus", "yarn", "spark"] fxEmpty dateT :=
  (run_all_canonical_order ["spark", "yarn", "spark", "bogus"] ["bogus", "yarn", "spark"]
    fxEmpty dateT (by intro n; simp only [List.mem_cons]; tauto)).1

/-- C8: in offline/test mode the composed report is a deterministic
function of the selection and the fixtures: the clock input is never
consulted, the date is the fixed sentinel TEST, and the report opens with
the TEST header. -/
theorem offline_deterministic (now1 now2 : List Char) (s : List String) (fx : Fixtures) :
    run_all s fx (initDate true now1) = run_all s fx (initDate true now2) ∧
    initDate true now1 = ("TEST").data ∧
    (∀ msg u, run_all s fx (initDate true now1) = some (msg, u) →
      ("Cluster report (TEST)\n").data <+: msg) := by
  refine ⟨rfl, rfl, ?_⟩
  intro msg u h
  obtain ⟨c4, hc4, hmsg, -⟩ := run_all_parts h
  subst hmsg
  have hdate : initDate true now1 = ("TEST").data := rfl
  rw [hdate]
  simp only [List.append_assoc]
  exact prefix_extend _ (by decide)

/-- Witness for C8 at two distinct clock readings. -/
theorem offline_deterministic_witness :
    run_all [] fxEmpty (initDate true nowA) = run_all [] fxEmpty (initDate true nowB) ∧
    ("Cluster report (TEST)\n").data <+: msgAllDisabled :=
  ⟨(offline_deterministic nowA nowB [] fxEmpty).1,
    (offline_deterministic nowA nowB [] fxEmpty).2.2 msgAllDisabled alrightName (by decide)⟩

theorem foldl_append_acc (xs : List Line) : ∀ acc : List Line,
    xs.foldl (fun a line => a ++ [line]) acc = acc ++ xs := by
  induction xs with
  | nil => intro acc; simp
  | cons x xs ih =>
    intro acc
    simp [ih]

/-- C9: with `cmd = None` (offline mode), `return_log` executes no
command, does not delete the sink even when `clean_log` is true, and
returns the sink's lines in order, unchanged. -/
theorem return_log_offline (logname : List Char) (sink : List Line) (clean_log : Bool) :
    (return_log none logname sink clean_log).executed = [] ∧
    (return_log none logname sink clean_log).removedSink = false ∧
    (return_log none logname sink clean_log).data = sink := by
  unfold return_log
  simp [foldl_append_acc]

/-- C10: a check message contains the degraded-marker substring iff that
probe classified the subsystem DEGRADED; the header (whose date is free
of the marker) and the disabled placeholders never contain it; hence the
substring scan of the accumulated message computes exactly the OR of the
enabled probes' DEGRADED statuses. -/
theorem rc_marker_iff_degraded (lg : Log) (e : Nat) (m : List Char)
    (s : List String) (fx : Fixtures) (d msg u : List Char)
    (hd : ¬ rcPat <:+: d) (hrun : run_all s fx d = some (msg, u)) :
    (rcPat <:+: check_yarn lg e ↔ countContaining RUNNING lg ≠ e) ∧
    (rcPat <:+: check_executors lg e ↔
      ¬(countContaining slaveDelim lg = Nat.land e (countContaining slaveDelim lg) ∧
        Nat.land e (countContaining slaveDelim lg) = countContaining transmittedPat lg)) ∧
    (rcPat <:+: check_jvms lg e ↔ countContaining unavailablePat lg ≠ 0) ∧
    (rcPat <:+: check_spark lg e ↔
      ¬(countContaining sparkPat lg =
          Nat.land (countContaining dashDelim lg) (countContaining sparkPat lg) ∧
        Nat.land (countContaining dashDelim lg) (countContaining sparkPat lg) = e)) ∧
    (check_hdfs lg e = some m → (rcPat <:+: m ↔ countContaining deadPat lg ≠ 0)) ∧
    (¬ rcPat <:+: headerMsg d) ∧
    (¬ rcPat <:+: exDisabled ∧ ¬ rcPat <:+: jvmsDisabled ∧ ¬ rcPat <:+: yarnDisabled ∧
      ¬ rcPat <:+: hdfsDisabled ∧ ¬ rcPat <:+: sparkDisabled) ∧
    (rcPat <:+: msg ↔ enabledDegraded s fx) :=
  ⟨rc_check_yarn lg e, rc_check_executors lg e, rc_check_jvms lg e, rc_check_spark lg e,
    fun hm => rc_check_hdfs hm, rc_headerMsg hd,
    ⟨by decide, by decide, by decide, by decide, by decide⟩,
    rc_msg_iff hd hrun⟩

/-- Witness for C10 at a concrete degraded yarn run. -/
theorem rc_marker_iff_degraded_witness :
    rcPat <:+: check_yarn yarnFixFail 9 ↔ countContaining RUNNING yarnFixFail ≠ 9 :=
  (rc_marker_iff_degraded yarnFixFail 9 [] ["yarn"] fxYarnFail dateT msgYarnFail problemName
    (by decide)
    (show run_all ["yarn"] fxYarnFail dateT = some (msgYarnFail, problemName) by decide)).1
